import Mathlib

/-!
A shallow embedding of the merchant-analysis orchestration system
(`src/orchestrator/orchestrator.py`, `src/mcp_server/server.py`) and proofs
of its specified properties.

The embedding follows the source:
* the tool implementations of the MCP server (`server.py`) become pure functions
  over an explicit in-memory state (merchant and transaction tables);
* the MCP client of the orchestrator (`execute_mcp_tool`) becomes a total function
  from a model of the network outcome of the HTTP request to the string-shaped
  tool output it returns;
* the polling loop (`wait_for_run_completion`) becomes a recursive function
  consuming a finite prefix of poll observations, returning `none` while no
  terminal status has been observed, and emitting an explicit event trace
  (tool executions, batch submissions, sleeps, terminal observations);
* the per-merchant pipeline (`analyze_merchant`) becomes a fold over the fixed
  stage list, threading the event trace and halting on non-completed runs.

Python floats carrying transaction amounts are modelled as rationals; the
external `datetime.fromisoformat` parser and `json.loads` are modelled as
function parameters (`String → Option _`), so that "invalid ISO format" and
"invalid arguments JSON" mean exactly "the parser rejects the string".
-/

namespace Mcp

/-- Transaction row, columns as produced by `datagen.py` and consumed by
`server.py` (`timestamp` as an abstract totally ordered instant, `amount` as a
rational standing for the Python float). -/
structure Txn where
  transaction_id : String
  merchant_id : String
  timestamp : Int
  amount : ℚ
  currency : String
  card_id_token : String
  card_type : String
  card_country : String
  is_rounded : Bool
  is_error : Nat
deriving DecidableEq, Repr

/-- Merchant row, columns as produced by `datagen.py`.  The two risk columns
written by `update_merchant_risk_status` do not exist until first written
(pandas `.loc` creates them); they are modelled as `Option String`, `none`
standing for an absent/NaN cell. -/
structure Merchant where
  merchant_id : String
  mcc : String
  merchant_name : String
  country : String
  ownership_changed_recently : Bool
  baseline_risk : String
  current_risk_status : Option String
  last_risk_reason : Option String
deriving DecidableEq, Repr

/-- The in-memory state of the MCP server: the two loaded dataframes. -/
structure ServerState where
  merchants : List Merchant
  transactions : List Txn
deriving DecidableEq, Repr

/-! ## `server.py` tool implementations -/

/-- Result shape of `get_merchant_aggregated_stats`: the stats dictionary. -/
structure AggStats where
  merchant_id : String
  period_start : String
  period_end : String
  total_transactions : Nat
  total_value : ℚ
  average_transaction_value : ℚ
  unique_cards : Nat
  prepaid_card_percentage : ℚ
  rounded_transaction_percentage : ℚ
  transactions_by_card_country : List (String × Nat)
deriving DecidableEq, Repr

/-- The dictionary returned by a `server.py` tool is one of: a stats mapping, a
dictionary with an `error` key, or a dictionary with a `message` key (the
no-transactions reply of `get_merchant_aggregated_stats`). -/
inductive StatsResult where
  | stats (s : AggStats)
  | err (msg : String)
  | message (msg : String)
deriving DecidableEq, Repr

/-- Whether a `StatsResult` is a dictionary carrying an `error` key. -/
def StatsResult.hasErrorKey : StatsResult → Bool
  | .err _ => true
  | _ => false

/-- Whether a `StatsResult` is the aggregate-stats mapping. -/
def StatsResult.isStats : StatsResult → Bool
  | .stats _ => true
  | _ => false

/-- The row filter of both aggregation tools: same merchant, timestamp within
the inclusive range. -/
def txnInRange (mid : String) (sd ed : Int) (t : Txn) : Bool :=
  t.merchant_id = mid && sd ≤ t.timestamp && t.timestamp ≤ ed

/-- `value_counts().to_dict()`: the count of each distinct value, keyed by
first occurrence (key order is irrelevant to every claim). -/
def valueCounts (xs : List String) : List (String × Nat) :=
  xs.dedup.map (fun v => (v, xs.count v))

/-- `get_merchant_aggregated_stats(merchant_id, start_date_str, end_date_str)`
from `server.py`.  `parse` models `datetime.fromisoformat` (`none` = raises
`ValueError`); `txns` is the loaded `transactions_df` (`[]` = empty). -/
def get_merchant_aggregated_stats (parse : String → Option Int) (txns : List Txn)
    (merchant_id start_date_str end_date_str : String) : StatsResult :=
  if txns.isEmpty then .err "Transaction data not loaded"
  else
    match parse start_date_str, parse end_date_str with
    | some sd, some ed =>
      let merchant_txns := txns.filter (txnInRange merchant_id sd ed)
      if merchant_txns.isEmpty then
        .message ("No transactions found for " ++ merchant_id ++ " in the period.")
      else
        .stats {
          merchant_id := merchant_id
          period_start := start_date_str
          period_end := end_date_str
          total_transactions := merchant_txns.length
          total_value := (merchant_txns.map Txn.amount).sum
          average_transaction_value :=
            (merchant_txns.map Txn.amount).sum / merchant_txns.length
          unique_cards := (merchant_txns.map Txn.card_id_token).dedup.length
          prepaid_card_percentage :=
            ((merchant_txns.filter (fun t => t.card_type = "Prepaid")).length : ℚ)
              / merchant_txns.length * 100
          rounded_transaction_percentage :=
            ((merchant_txns.filter Txn.is_rounded).length : ℚ)
              / merchant_txns.length * 100
          transactions_by_card_country := valueCounts (merchant_txns.map Txn.card_country) }
    | _, _ => .err "Invalid date format. Use ISO format (YYYY-MM-DDTHH:MM:SS)."

/-- Result of `get_anomalous_transactions`: either a single-element error list
or a list of transaction records. -/
inductive AnomResult where
  | err (msg : String)
  | records (rs : List Txn)
deriving DecidableEq, Repr

/-- `get_anomalous_transactions(merchant_id, start_date_str, end_date_str,
min_amount=1000.0)` from `server.py`: filter by merchant, inclusive range and
`amount >= min_amount`, then `.head(10)`. -/
def get_anomalous_transactions (parse : String → Option Int) (txns : List Txn)
    (merchant_id start_date_str end_date_str : String)
    (min_amount : ℚ := 1000) : AnomResult :=
  if txns.isEmpty then .err "Transaction data not loaded"
  else
    match parse start_date_str, parse end_date_str with
    | some sd, some ed =>
      .records (((txns.filter
          (fun t => txnInRange merchant_id sd ed t && min_amount ≤ t.amount))).take 10)
    | _, _ => .err "Invalid date format. Use ISO format (YYYY-MM-DDTHH:MM:SS)."

/-- Result dictionary of `update_merchant_risk_status`. -/
inductive UpdateResult where
  | success (merchant_id new_status : String)
  | error (message : String)
deriving DecidableEq, Repr

/-- `update_merchant_risk_status(merchant_id, new_status, reason_code)` from
`server.py`: sets `current_risk_status` and `last_risk_reason` on the rows
matching `merchant_id`; errors if the merchant table is empty or the id is
absent.  Returns the new server state together with the result dictionary. -/
def update_merchant_risk_status (st : ServerState)
    (merchant_id new_status reason_code : String) : ServerState × UpdateResult :=
  if st.merchants.isEmpty then
    (st, .error "Merchant data not loaded.")
  else if merchant_id ∈ st.merchants.map Merchant.merchant_id then
    ({ st with merchants := st.merchants.map (fun m =>
        if m.merchant_id = merchant_id then
          { m with current_risk_status := some new_status,
                   last_risk_reason := some reason_code }
        else m) },
     .success merchant_id new_status)
  else
    (st, .error ("Merchant " ++ merchant_id ++ " not found for status update."))

/-! ## `server.py` `/execute` endpoint -/

/-- Named-parameter signature (required names, optional names) of each tool
function registered in `AVAILABLE_TOOLS`, as declared by the `def` lines of
`server.py`. -/
def toolSig : String → Option (List String × List String)
  | "get_merchant_profile" => some (["merchant_id"], [])
  | "get_merchant_aggregated_stats" =>
      some (["merchant_id", "start_date_str", "end_date_str"], [])
  | "get_anomalous_transactions" =>
      some (["merchant_id", "start_date_str", "end_date_str"], ["min_amount"])
  | "update_merchant_risk_status" =>
      some (["merchant_id", "new_status", "reason_code"], [])
  | "create_aml_manual_review_case" =>
      some (["merchant_id", "risk_category", "summary", "key_indicators"], [])
  | _ => none

/-- Whether Python `func(**arguments)` binds without `TypeError`: every
required parameter is supplied and no supplied key is outside the
signature. -/
def argsMatch (keys req opt : List String) : Bool :=
  req.all (fun r => r ∈ keys) && keys.all (fun k => k ∈ req ++ opt)

/-- An HTTP reply of the `/execute` endpoint: a 200 `{"result": ...}` body
(the result serialized as the string the orchestrator will forward), or an
error status with an `{"error": ...}` body. -/
inductive ServerResp where
  | ok (result : String)
  | err (status : Nat) (errorMsg : String)
deriving DecidableEq, Repr

/-- The `/execute` endpoint of `server.py`.  `tool_name` is the optional
`tool_name` field of the request body, `argKeys` the key set of its
`arguments` mapping, and `run` the underlying tool execution (already bound
to the server state), returning the serialized result or raising
(`Except.error`).  Mirrors: missing name → 400; unknown name → 404;
`TypeError` on binding → 400 argument-mismatch; other exception → 500. -/
def execute_tool (run : String → List String → Except String String)
    (tool_name : Option String) (argKeys : List String) : ServerResp :=
  match tool_name with
  | none => .err 400 "Missing \x27tool_name\x27"
  | some name =>
    match toolSig name with
    | none => .err 404 ("Tool \x27" ++ name ++ "\x27 not found.")
    | some (req, opt) =>
      if argsMatch argKeys req opt then
        match run name argKeys with
        | .ok v => .ok v
        | .error e =>
            .err 500 ("Internal server error executing tool \x27" ++ name ++ "\x27: " ++ e)
      else
        .err 400 ("Argument mismatch for tool \x27" ++ name ++ "\x27: unexpected or missing arguments")

/-! ## `orchestrator.py` MCP client (`execute_mcp_tool`) -/

/-- The JSON body of an HTTP response as seen by `response.json()`:
unparseable, or an object with optional top-level `error` and `result`
fields (field payloads kept as serialized strings). -/
inductive BodyJson where
  | malformed (raw : String)
  | obj (errorField : Option String) (resultField : Option String)
deriving DecidableEq, Repr

/-- Outcome of the network request itself: a connection-level fault
(`requests.exceptions.RequestException` other than timeout), or an HTTP
response with a status code and body. -/
inductive NetResult where
  | connFault (msg : String)
  | http (status : Nat) (body : BodyJson)
deriving DecidableEq, Repr

/-- One observed behavior of the `requests.post` call: how long it took, and
what came back if it came back within the timeout. -/
structure NetBehavior where
  elapsed : Nat
  result : NetResult
deriving DecidableEq, Repr

/-- The explicit timeout passed to `requests.post` in `execute_mcp_tool`
(`timeout=30`). -/
def REQUEST_TIMEOUT : Nat := 30

/-- The message of the `requests.HTTPError` raised by `raise_for_status`: a
function of the status code (and URL) only — the `error` field of the response body
field is not part of it. -/
def httpErrMsg (status : Nat) : String :=
  (if status < 500 then toString status ++ " Client Error"
   else toString status ++ " Server Error") ++ " for url: /execute"

/-- The string returned by `execute_mcp_tool`: `json.dumps({"error": msg})`
or `json.dumps(result)`. -/
inductive ToolOut where
  | errorOut (msg : String)
  | resultOut (v : String)
deriving DecidableEq, Repr

/-- Whether a tool output is an error-shaped JSON string (an object with an
`error` field). -/
def ToolOut.isErrorShaped : ToolOut → Bool
  | .errorOut _ => true
  | .resultOut _ => false

/-- `execute_mcp_tool(tool_name, arguments)` from `orchestrator.py`, as a
function of the observed network behavior `nb` of its POST request.
Mirrors the source handlers in order: a timeout or connection fault is
caught as `RequestException`; `raise_for_status` raises (and is caught the
same way) for 4xx/5xx; an unparseable body raises `JSONDecodeError`; a body
with a top-level `error` field is re-wrapped as an error string; otherwise
`result` (defaulting to the empty object) is dumped. -/
def execute_mcp_tool (nb : NetBehavior) : ToolOut :=
  if REQUEST_TIMEOUT < nb.elapsed then
    .errorOut "MCP connection error: timed out"
  else
    match nb.result with
    | .connFault m => .errorOut ("MCP connection error: " ++ m)
    | .http status body =>
      if 400 ≤ status ∧ status < 600 then
        .errorOut ("MCP connection error: " ++ httpErrMsg status)
      else
        match body with
        | .malformed raw => .errorOut ("MCP invalid JSON response: " ++ raw)
        | .obj (some e) _ => .errorOut e
        | .obj none (some r) => .resultOut r
        | .obj none none => .resultOut "\x7b\x7d"

/-- The network behavior of a request that reached the Flask server and got
its reply (within the timeout): `jsonify({"result": v})` on success,
`jsonify({"error": m}), status` on failure. -/
def serverToNet : ServerResp → NetBehavior
  | .ok v => { elapsed := 0, result := .http 200 (.obj none (some v)) }
  | .err status m => { elapsed := 0, result := .http status (.obj (some m) none) }

/-- The Tool Executor boundary fails on a given behavior: timeout exceeded,
connection fault, HTTP error status, unparseable body, or a structured
`error` reply. -/
def netFails (nb : NetBehavior) : Bool :=
  decide (REQUEST_TIMEOUT < nb.elapsed) ||
  (match nb.result with
   | .connFault _ => true
   | .http status body =>
     decide (400 ≤ status ∧ status < 600) ||
     (match body with
      | .malformed _ => true
      | .obj (some _) _ => true
      | .obj none _ => false))

/-! ## `orchestrator.py` Job Driver (`wait_for_run_completion`) -/

/-- A parsed `arguments` dictionary (keys to serialized JSON values). -/
def Args := List (String × String)

instance : DecidableEq Args := by unfold Args; infer_instance

/-- One pending tool call of a run in `requires_action`
(`run.required_action.submit_tool_outputs.tool_calls[i]`): its id (the
correlation token), function name, and the raw `function.arguments`
string. -/
structure ToolCall where
  id : String
  name : String
  arguments : String
deriving DecidableEq, Repr

/-- One element of the `tool_outputs` list submitted back to the run. -/
structure ToolOutputEntry where
  tool_call_id : String
  output : ToolOut
deriving DecidableEq, Repr

/-- Run statuses as observed by the polling loop. -/
inductive RunStatus where
  | completed
  | requiresAction
  | failed
  | cancelled
  | expired
  | queued
  | inProgress
  | other (s : String)
deriving DecidableEq, Repr

/-- The statuses on which `wait_for_run_completion` returns. -/
def RunStatus.isTerminal : RunStatus → Bool
  | .completed => true
  | .failed => true
  | .cancelled => true
  | .expired => true
  | _ => false

/-- What `wait_for_run_completion` returns: status and `last_error` of the final run object. -/
structure RunResult where
  status : RunStatus
  last_error : Option String
deriving DecidableEq, Repr

/-- The observation one iteration makes of `client.beta.threads.runs.retrieve`:
either a run object (status, pending tool calls, last error) or an exception
raised by the status check itself. -/
inductive PollObs where
  | ok (status : RunStatus) (pending : List ToolCall) (last_error : Option String)
  | exn (msg : String)
deriving DecidableEq, Repr

/-- Whether an observation shows a terminal status (an exception does not). -/
def PollObs.isTerminal : PollObs → Bool
  | .ok status _ _ => status.isTerminal
  | .exn _ => false

/-- Observable actions of the orchestrator, tagged with the pipeline stage
(agent name) performing them. -/
inductive Event where
  | createRun (stage : String)
  | execTool (stage : String) (tool : String)
  | submitOutputs (stage : String) (batch : List ToolOutputEntry)
  | observeTerminal (stage : String) (status : RunStatus)
  | sleep (stage : String) (seconds : Nat)
deriving DecidableEq, Repr

/-- The stage tag of an event. -/
def Event.stage : Event → String
  | .createRun s => s
  | .execTool s _ => s
  | .submitOutputs s _ => s
  | .observeTerminal s _ => s
  | .sleep s _ => s

/-- Whether an event is a run creation. -/
def Event.isCreate : Event → Bool
  | .createRun _ => true
  | _ => false

/-- The duration of a sleep event. -/
def Event.sleepTime : Event → Option Nat
  | .sleep _ n => some n
  | _ => none

/-- `time.sleep(2)` after a non-terminal poll. -/
def POLL_DELAY : Nat := 2

/-- `time.sleep(5)` after an exception in the status check. -/
def EXC_DELAY : Nat := 5

/-- The per-tool-call body of the `requires_action` branch
(`orchestrator.py` lines 221–237).  `jsonLoads` models `json.loads` on the
`arguments` string (`none` = raises `JSONDecodeError`); `executor` models
`execute_mcp_tool`.  On a parse failure the source first assigns the
invalid-JSON error to `output` and sets `arguments = {}`; the assignment is
dead because the unconditional `execute_mcp_tool` call that follows rebinds
`output`. -/
def processToolCall (jsonLoads : String → Option Args)
    (executor : String → Args → ToolOut) (tc : ToolCall) : ToolOutputEntry :=
  let parsed := jsonLoads tc.arguments
  let deadOutput : Option ToolOut :=
    match parsed with
    | some _ => none
    | none => some (.errorOut "Invalid arguments JSON received from Assistant")
  let arguments : Args :=
    match parsed with
    | some a => a
    | none => []
  let _ := deadOutput
  { tool_call_id := tc.id, output := executor tc.name arguments }

/-- The full `tool_outputs` list built for one `requires_action`
observation: one entry per pending tool call, in order. -/
def buildToolOutputs (jsonLoads : String → Option Args)
    (executor : String → Args → ToolOut) (pending : List ToolCall) :
    List ToolOutputEntry :=
  pending.map (processToolCall jsonLoads executor)

/-- `wait_for_run_completion(thread_id, run_id, agent_name)` from
`orchestrator.py`, as a function of the finite list of poll observations it
has seen so far.  Returns `(some result, events)` once a terminal status is
observed, and `(none, events)` if the observations run out first (the real
loop would still be spinning).  Each branch mirrors the source: `completed`
and `failed`/`cancelled`/`expired` return without sleeping; `requires_action`
builds and submits the full batch then sleeps `POLL_DELAY`;
`queued`/`in_progress` and unknown statuses sleep `POLL_DELAY`; an exception
in the status check sleeps `EXC_DELAY` and retries. -/
def wait_for_run_completion (jsonLoads : String → Option Args)
    (executor : String → Args → ToolOut) (stage : String) :
    List PollObs → Option RunResult × List Event
  | [] => (none, [])
  | .ok status pending lastError :: rest =>
    match status with
    | .completed => (some ⟨.completed, lastError⟩, [.observeTerminal stage .completed])
    | .requiresAction =>
      let batch := buildToolOutputs jsonLoads executor pending
      let (r, evs) := wait_for_run_completion jsonLoads executor stage rest
      (r, pending.map (fun tc => Event.execTool stage tc.name) ++
          Event.submitOutputs stage batch :: Event.sleep stage POLL_DELAY :: evs)
    | .failed => (some ⟨.failed, lastError⟩, [.observeTerminal stage .failed])
    | .cancelled => (some ⟨.cancelled, lastError⟩, [.observeTerminal stage .cancelled])
    | .expired => (some ⟨.expired, lastError⟩, [.observeTerminal stage .expired])
    | .queued =>
      let (r, evs) := wait_for_run_completion jsonLoads executor stage rest
      (r, Event.sleep stage POLL_DELAY :: evs)
    | .inProgress =>
      let (r, evs) := wait_for_run_completion jsonLoads executor stage rest
      (r, Event.sleep stage POLL_DELAY :: evs)
    | .other _ =>
      let (r, evs) := wait_for_run_completion jsonLoads executor stage rest
      (r, Event.sleep stage POLL_DELAY :: evs)
  | .exn _ :: rest =>
    let (r, evs) := wait_for_run_completion jsonLoads executor stage rest
    (r, Event.sleep stage EXC_DELAY :: evs)

/-! ## `orchestrator.py` Pipeline Sequencer (`analyze_merchant`) -/

/-- The fixed agent pipeline of `analyze_merchant`. -/
def stageList : List String :=
  ["Data Aggregation", "Pattern Detection", "Risk Assessment", "Action Alerting"]

/-- Outcome of the per-merchant workflow: all stages completed; halted after
the run of a stage came back non-completed (`Workflow stopped due to ... run
failure`); or still polling inside a stage whose observations never showed a
terminal status. -/
inductive PipeOutcome where
  | complete
  | halted (stage : String) (status : RunStatus)
  | polling (stage : String)
deriving DecidableEq, Repr

/-- The stage loop of `analyze_merchant`: for each stage (paired with the
poll observations its run will produce), create the run, drive it with
`wait_for_run_completion`, and continue only when the result status is
`completed`. -/
def runStages (jsonLoads : String → Option Args)
    (executor : String → Args → ToolOut) :
    List (String × List PollObs) → List Event × PipeOutcome
  | [] => ([], .complete)
  | (name, obs) :: rest =>
    match wait_for_run_completion jsonLoads executor name obs with
    | (none, evs) => (Event.createRun name :: evs, .polling name)
    | (some r, evs) =>
      if r.status = .completed then
        let (tr, out) := runStages jsonLoads executor rest
        (Event.createRun name :: (evs ++ tr), out)
      else
        (Event.createRun name :: evs, .halted name r.status)

/-- `analyze_merchant(merchant_id, analysis_days)` from `orchestrator.py`,
restricted to its control flow over the fixed stage list; `obss` gives each
poll observations of the run of each stage. -/
def analyze_merchant (jsonLoads : String → Option Args)
    (executor : String → Args → ToolOut) (obss : List (List PollObs)) :
    List Event × PipeOutcome :=
  runStages jsonLoads executor (stageList.zip obss)

/-- The delay the loop incurs after processing one observation: `POLL_DELAY`
after any non-terminal run object, `EXC_DELAY` after a status-check
exception, none on a terminal observation (the loop returns at once). -/
def PollObs.delay : PollObs → Option Nat
  | .ok status _ _ => if status.isTerminal then none else some POLL_DELAY
  | .exn _ => some EXC_DELAY

/-! ## Lemmas about the polling loop -/

theorem wait_stage_eq (jl : String → Option Args) (ex : String → Args → ToolOut)
    (stage : String) (obs : List PollObs) :
    ∀ e ∈ (wait_for_run_completion jl ex stage obs).2, e.stage = stage := by
  induction obs with
  | nil => intro e he; simp [wait_for_run_completion] at he
  | cons o rest ih =>
    intro e he
    rcases hw : wait_for_run_completion jl ex stage rest with ⟨r, evs⟩
    simp only [hw] at ih
    cases o with
    | exn m =>
      simp only [wait_for_run_completion, hw] at he
      rcases List.mem_cons.mp he with he | he
      · subst he; rfl
      · exact ih e he
    | ok status pending lastError =>
      cases status <;> simp only [wait_for_run_completion, hw] at he
      case completed => simp at he; subst he; rfl
      case failed => simp at he; subst he; rfl
      case cancelled => simp at he; subst he; rfl
      case expired => simp at he; subst he; rfl
      case requiresAction =>
        simp only [List.mem_append, List.mem_map, List.mem_cons] at he
        rcases he with ⟨tc, _, rfl⟩ | he | he | he
        · rfl
        · subst he; rfl
        · subst he; rfl
        · exact ih e he
      case queued =>
        rcases List.mem_cons.mp he with he | he
        · subst he; rfl
        · exact ih e he
      case inProgress =>
        rcases List.mem_cons.mp he with he | he
        · subst he; rfl
        · exact ih e he
      case other s =>
        rcases List.mem_cons.mp he with he | he
        · subst he; rfl
        · exact ih e he

theorem wait_no_createRun (jl : String → Option Args) (ex : String → Args → ToolOut)
    (stage : String) (obs : List PollObs) :
    ∀ e ∈ (wait_for_run_completion jl ex stage obs).2, e.isCreate = false := by
  induction obs with
  | nil => intro e he; simp [wait_for_run_completion] at he
  | cons o rest ih =>
    intro e he
    rcases hw : wait_for_run_completion jl ex stage rest with ⟨r, evs⟩
    simp only [hw] at ih
    cases o with
    | exn m =>
      simp only [wait_for_run_completion, hw] at he
      rcases List.mem_cons.mp he with he | he
      · subst he; rfl
      · exact ih e he
    | ok status pending lastError =>
      cases status <;> simp only [wait_for_run_completion, hw] at he
      case completed => simp at he; subst he; rfl
      case failed => simp at he; subst he; rfl
      case cancelled => simp at he; subst he; rfl
      case expired => simp at he; subst he; rfl
      case requiresAction =>
        simp only [List.mem_append, List.mem_map, List.mem_cons] at he
        rcases he with ⟨tc, _, rfl⟩ | he | he | he
        · rfl
        · subst he; rfl
        · subst he; rfl
        · exact ih e he
      case queued =>
        rcases List.mem_cons.mp he with he | he
        · subst he; rfl
        · exact ih e he
      case inProgress =>
        rcases List.mem_cons.mp he with he | he
        · subst he; rfl
        · exact ih e he
      case other s =>
        rcases List.mem_cons.mp he with he | he
        · subst he; rfl
        · exact ih e he

theorem wait_some_terminal (jl : String → Option Args) (ex : String → Args → ToolOut)
    (stage : String) (obs : List PollObs) (r : RunResult)
    (h : (wait_for_run_completion jl ex stage obs).1 = some r) :
    r.status.isTerminal = true ∧
      Event.observeTerminal stage r.status ∈ (wait_for_run_completion jl ex stage obs).2 := by
  induction obs with
  | nil => simp [wait_for_run_completion] at h
  | cons o rest ih =>
    rcases hw : wait_for_run_completion jl ex stage rest with ⟨r', evs⟩
    simp only [hw] at ih
    cases o with
    | exn m =>
      simp only [wait_for_run_completion, hw] at h ⊢
      rcases ih h with ⟨h1, h2⟩
      exact ⟨h1, List.mem_cons_of_mem _ h2⟩
    | ok status pending lastError =>
      cases status
      case completed =>
        simp only [wait_for_run_completion] at h ⊢
        obtain rfl : (⟨.completed, lastError⟩ : RunResult) = r := Option.some.inj h
        simp [RunStatus.isTerminal]
      case failed =>
        simp only [wait_for_run_completion] at h ⊢
        obtain rfl : (⟨.failed, lastError⟩ : RunResult) = r := Option.some.inj h
        simp [RunStatus.isTerminal]
      case cancelled =>
        simp only [wait_for_run_completion] at h ⊢
        obtain rfl : (⟨.cancelled, lastError⟩ : RunResult) = r := Option.some.inj h
        simp [RunStatus.isTerminal]
      case expired =>
        simp only [wait_for_run_completion] at h ⊢
        obtain rfl : (⟨.expired, lastError⟩ : RunResult) = r := Option.some.inj h
        simp [RunStatus.isTerminal]
      case requiresAction =>
        simp only [wait_for_run_completion, hw] at h ⊢
        rcases ih h with ⟨h1, h2⟩
        refine ⟨h1, ?_⟩
        simp only [List.mem_append, List.mem_cons]
        exact Or.inr (Or.inr (Or.inr h2))
      case queued =>
        simp only [wait_for_run_completion, hw] at h ⊢
        rcases ih h with ⟨h1, h2⟩
        exact ⟨h1, List.mem_cons_of_mem _ h2⟩
      case inProgress =>
        simp only [wait_for_run_completion, hw] at h ⊢
        rcases ih h with ⟨h1, h2⟩
        exact ⟨h1, List.mem_cons_of_mem _ h2⟩
      case other s =>
        simp only [wait_for_run_completion, hw] at h ⊢
        rcases ih h with ⟨h1, h2⟩
        exact ⟨h1, List.mem_cons_of_mem _ h2⟩

theorem wait_none_of_no_terminal (jl : String → Option Args)
    (ex : String → Args → ToolOut) (stage : String) (obs : List PollObs)
    (h : ∀ o ∈ obs, o.isTerminal = false) :
    (wait_for_run_completion jl ex stage obs).1 = none := by
  induction obs with
  | nil => simp [wait_for_run_completion]
  | cons o rest ih =>
    have ho : o.isTerminal = false := h o (List.mem_cons_self _ _)
    have ih' := ih (fun o' ho' => h o' (List.mem_cons_of_mem _ ho'))
    rcases hw : wait_for_run_completion jl ex stage rest with ⟨r, evs⟩
    simp only [hw] at ih'
    subst ih'
    cases o with
    | exn m => simp [wait_for_run_completion, hw]
    | ok status pending lastError =>
      cases status <;>
        simp_all [wait_for_run_completion, hw, PollObs.isTerminal, RunStatus.isTerminal]

theorem wait_sleeps (jl : String → Option Args) (ex : String → Args → ToolOut)
    (stage : String) (obs : List PollObs) :
    (wait_for_run_completion jl ex stage obs).2.filterMap Event.sleepTime =
      (obs.takeWhile (fun o => !o.isTerminal)).filterMap PollObs.delay := by
  induction obs with
  | nil => simp [wait_for_run_completion]
  | cons o rest ih =>
    rcases hw : wait_for_run_completion jl ex stage rest with ⟨r, evs⟩
    simp only [hw] at ih
    cases o with
    | exn m =>
      simp [wait_for_run_completion, hw, PollObs.isTerminal, PollObs.delay,
        Event.sleepTime, ih]
    | ok status pending lastError =>
      cases status <;>
        simp [wait_for_run_completion, hw, PollObs.isTerminal, RunStatus.isTerminal,
          PollObs.delay, Event.sleepTime, ih, List.filterMap_append, List.filterMap_map]

theorem wait_submit_from_pending (jl : String → Option Args)
    (ex : String → Args → ToolOut) (stage : String) (obs : List PollObs)
    (batch : List ToolOutputEntry)
    (h : Event.submitOutputs stage batch ∈ (wait_for_run_completion jl ex stage obs).2) :
    ∃ pending lastError, PollObs.ok .requiresAction pending lastError ∈ obs ∧
      batch = buildToolOutputs jl ex pending := by
  induction obs with
  | nil => simp [wait_for_run_completion] at h
  | cons o rest ih =>
    rcases hw : wait_for_run_completion jl ex stage rest with ⟨r, evs⟩
    simp only [hw] at ih
    cases o with
    | exn m =>
      simp only [wait_for_run_completion, hw] at h
      rcases List.mem_cons.mp h with h | h
      · cases h
      · obtain ⟨p, le, hm, hb⟩ := ih h
        exact ⟨p, le, List.mem_cons_of_mem _ hm, hb⟩
    | ok status pending lastError =>
      cases status <;> simp only [wait_for_run_completion, hw] at h
      case completed => simp at h
      case failed => simp at h
      case cancelled => simp at h
      case expired => simp at h
      case requiresAction =>
        simp only [List.mem_append, List.mem_map, List.mem_cons] at h
        rcases h with ⟨tc, _, h⟩ | h | h | h
        · cases h
        · obtain ⟨_, rfl⟩ : stage = stage ∧ batch = buildToolOutputs jl ex pending := by
            injection h with h1 h2; exact ⟨h1, h2⟩
          exact ⟨pending, lastError, List.mem_cons_self _ _, rfl⟩
        · cases h
        · obtain ⟨p, le, hm, hb⟩ := ih h
          exact ⟨p, le, List.mem_cons_of_mem _ hm, hb⟩
      case queued =>
        rcases List.mem_cons.mp h with h | h
        · cases h
        · obtain ⟨p, le, hm, hb⟩ := ih h
          exact ⟨p, le, List.mem_cons_of_mem _ hm, hb⟩
      case inProgress =>
        rcases List.mem_cons.mp h with h | h
        · cases h
        · obtain ⟨p, le, hm, hb⟩ := ih h
          exact ⟨p, le, List.mem_cons_of_mem _ hm, hb⟩
      case other s =>
        rcases List.mem_cons.mp h with h | h
        · cases h
        · obtain ⟨p, le, hm, hb⟩ := ih h
          exact ⟨p, le, List.mem_cons_of_mem _ hm, hb⟩

/-! ## Lemmas about the stage loop -/

theorem append_cons_inj {α : Type} {a : α} :
    ∀ (p₁ p₂ s₁ s₂ : List α), p₁ ++ a :: s₁ = p₂ ++ a :: s₂ →
      a ∉ p₁ → a ∉ p₂ → p₁ = p₂ ∧ s₁ = s₂ := by
  intro p₁
  induction p₁ with
  | nil =>
    intro p₂ s₁ s₂ h h₁ h₂
    cases p₂ with
    | nil => simpa using h
    | cons b p₂' =>
      simp only [List.nil_append, List.cons_append, List.cons.injEq] at h
      exact absurd (h.1 ▸ List.mem_cons_self b p₂') h₂
  | cons b p₁' ih =>
    intro p₂ s₁ s₂ h h₁ h₂
    cases p₂ with
    | nil =>
      simp only [List.cons_append, List.nil_append, List.cons.injEq] at h
      exact absurd (h.1 ▸ List.mem_cons_self b p₁') h₁
    | cons c p₂' =>
      simp only [List.cons_append, List.cons.injEq] at h
      obtain ⟨rfl, h'⟩ := h
      obtain ⟨rfl, rfl⟩ := ih p₂' s₁ s₂ h'
        (fun hm => h₁ (List.mem_cons_of_mem _ hm))
        (fun hm => h₂ (List.mem_cons_of_mem _ hm))
      exact ⟨rfl, rfl⟩

theorem prefix_append_cases {α : Type} {p l m : List α} (h : p <+: l ++ m) :
    p <+: l ∨ ∃ q, p = l ++ q ∧ q <+: m := by
  rcases le_or_lt p.length l.length with hle | hlt
  · exact Or.inl (List.prefix_of_prefix_length_le h (l.prefix_append m) hle)
  · right
    obtain ⟨q, rfl⟩ := List.prefix_of_prefix_length_le (l.prefix_append m) h
      (Nat.le_of_lt hlt)
    refine ⟨q, rfl, ?_⟩
    obtain ⟨t, ht⟩ := h
    rw [List.append_assoc] at ht
    exact ⟨t, List.append_cancel_left ht⟩

theorem zip_map_fst_leading {α β : Type} :
    ∀ (l₁ : List α) (l₂ : List β), ((l₁.zip l₂).map Prod.fst) <+: l₁ := by
  intro l₁
  induction l₁ with
  | nil => intro l₂; simp
  | cons a l₁ ih =>
    intro l₂
    cases l₂ with
    | nil => simp
    | cons b l₂ =>
      simp only [List.zip_cons_cons, List.map_cons]
      exact List.cons_prefix_cons.mpr ⟨rfl, ih l₂⟩

theorem runStages_halted (jl : String → Option Args) (ex : String → Args → ToolOut) :
    ∀ (l : List (String × List PollObs)) (tr : List Event) (name : String)
      (st : RunStatus), (l.map Prod.fst).Nodup →
      runStages jl ex l = (tr, .halted name st) →
      (st = .failed ∨ st = .cancelled ∨ st = .expired) ∧
      ∃ l₁ obs l₂, l = l₁ ++ (name, obs) :: l₂ ∧
        (∀ e ∈ tr, e.stage ∈ l₁.map Prod.fst ++ [name]) ∧
        tr.countP (fun e => decide (e = Event.createRun name)) = 1 := by
  intro l
  induction l with
  | nil => intro tr name st _ h; simp [runStages] at h
  | cons p rest ih =>
    obtain ⟨n, obs⟩ := p
    intro tr name st hnd h
    simp only [List.map_cons, List.nodup_cons] at hnd
    obtain ⟨hn_notmem, hnd_rest⟩ := hnd
    rcases hw : wait_for_run_completion jl ex n obs with ⟨ro, evs⟩
    cases ro with
    | none => simp [runStages, hw] at h
    | some r =>
      by_cases hc : r.status = .completed
      · rcases hr : runStages jl ex rest with ⟨tr', out'⟩
        have h' : (Event.createRun n :: (evs ++ tr'), out') =
            (tr, PipeOutcome.halted name st) := by
          rw [← h]; simp [runStages, hw, hc, hr]
        rw [Prod.mk.injEq] at h'
        obtain ⟨htr, hout⟩ := h'
        obtain ⟨hst, l₁', o', l₂', hrest, hstage', hcount'⟩ :=
          ih tr' name st hnd_rest (by rw [hr, hout])
        subst htr hrest
        have hname_rest : name ∈ (l₁' ++ (name, o') :: l₂').map Prod.fst := by
          simp
        have hn_ne : n ≠ name := fun hEq => hn_notmem (hEq ▸ hname_rest)
        refine ⟨hst, (n, obs) :: l₁', o', l₂', rfl, ?_, ?_⟩
        · intro e he
          rcases List.mem_cons.mp he with rfl | he
          · simp [Event.stage]
          · simp only [List.map_cons, List.cons_append, List.mem_cons]
            rcases List.mem_append.mp he with he | he
            · have := wait_stage_eq jl ex n obs e (by rw [hw]; exact he)
              exact Or.inl this
            · exact Or.inr (hstage' e he)
        · rw [List.countP_cons, List.countP_append]
          have hevs : evs.countP (fun e => decide (e = Event.createRun name)) = 0 := by
            rw [List.countP_eq_zero]
            intro e he hdec
            have hfalse := wait_no_createRun jl ex n obs e (by rw [hw]; exact he)
            rw [decide_eq_true_eq] at hdec
            subst hdec
            simp [Event.isCreate] at hfalse
          have hhead : (decide (Event.createRun n = Event.createRun name)) = false := by
            simp [hn_ne]
          rw [hevs, hcount', hhead]
          simp
      · have h' : (Event.createRun n :: evs, PipeOutcome.halted n r.status) =
            (tr, PipeOutcome.halted name st) := by
          rw [← h]; simp [runStages, hw, hc]
        rw [Prod.mk.injEq] at h'
        obtain ⟨htr, hout⟩ := h'
        obtain ⟨hname, hstat⟩ : n = name ∧ r.status = st := by
          injection hout with h1 h2; exact ⟨h1, h2⟩
        have hterm := (wait_some_terminal jl ex n obs r (by rw [hw])).1
        have hst : st = .failed ∨ st = .cancelled ∨ st = .expired := by
          rw [← hstat]
          rw [← hstat] at *
          cases hsv : r.status <;> rw [hsv] at hterm hc <;>
            simp [RunStatus.isTerminal] at hterm hc ⊢
        refine ⟨hst, [], obs, rest, ?_, ?_, ?_⟩
        · rw [hname]; simp
        · intro e he
          rw [← htr] at he
          rcases List.mem_cons.mp he with rfl | he
          · simp [Event.stage, hname]
          · have := wait_stage_eq jl ex n obs e (by rw [hw]; exact he)
            simp [this, hname]
        · rw [← htr, List.countP_cons]
          have hevs : evs.countP (fun e => decide (e = Event.createRun name)) = 0 := by
            rw [List.countP_eq_zero]
            intro e he hdec
            have hfalse := wait_no_createRun jl ex n obs e (by rw [hw]; exact he)
            rw [decide_eq_true_eq] at hdec
            subst hdec
            simp [Event.isCreate] at hfalse
          rw [hevs]
          simp [hname]

theorem runStages_seq (jl : String → Option Args) (ex : String → Args → ToolOut) :
    ∀ (l : List (String × List PollObs)) (tr : List Event) (out : PipeOutcome),
      (l.map Prod.fst).Nodup → runStages jl ex l = (tr, out) →
      ∀ (k : Nat) (hk : k + 1 < l.length) (p : List Event), p <+: tr →
        Event.createRun (l.get ⟨k + 1, hk⟩).1 ∈ p →
        Event.observeTerminal (l.get ⟨k, Nat.lt_of_succ_lt hk⟩).1 .completed ∈ p := by
  intro l
  induction l with
  | nil => intro tr out _ _ k hk; simp at hk
  | cons hd rest ih =>
    obtain ⟨n, obs⟩ := hd
    intro tr out hnd h k hk p hp hmem
    simp only [List.map_cons, List.nodup_cons] at hnd
    obtain ⟨hn_notmem, hnd_rest⟩ := hnd
    have hk' : k < rest.length := by simpa using Nat.lt_of_succ_lt_succ hk
    have hget1 : ((n, obs) :: rest).get ⟨k + 1, hk⟩ = rest.get ⟨k, hk'⟩ := rfl
    set s' := (rest.get ⟨k, hk'⟩).1 with hs'
    have hs'_mem : s' ∈ rest.map Prod.fst :=
      List.mem_map_of_mem Prod.fst (rest.get_mem k hk')
    have hs'_ne : s' ≠ n := fun hEq => hn_notmem (hEq ▸ hs'_mem)
    rw [hget1] at hmem
    rcases hw : wait_for_run_completion jl ex n obs with ⟨ro, evs⟩
    have hnoc : ∀ e ∈ evs, e.isCreate = false := fun e he =>
      wait_no_createRun jl ex n obs e (by rw [hw]; exact he)
    cases ro with
    | none =>
      have htr : tr = Event.createRun n :: evs := by
        have := h.symm.trans (by simp [runStages, hw] : runStages jl ex ((n, obs) :: rest)
          = (Event.createRun n :: evs, .polling n))
        exact congrArg Prod.fst this
      exfalso
      have hin : Event.createRun s' ∈ tr := hp.sublist.subset hmem
      rw [htr] at hin
      rcases List.mem_cons.mp hin with hin | hin
      · exact hs'_ne (by injection hin)
      · simpa [Event.isCreate] using hnoc _ hin
    | some r =>
      by_cases hc : r.status = .completed
      · rcases hr : runStages jl ex rest with ⟨tr', out'⟩
        have htr : tr = Event.createRun n :: (evs ++ tr') := by
          have := h.symm.trans (by simp [runStages, hw, hc, hr] :
            runStages jl ex ((n, obs) :: rest)
              = (Event.createRun n :: (evs ++ tr'), out'))
          exact congrArg Prod.fst this
        subst htr
        cases p with
        | nil => simp at hmem
        | cons e₀ p' =>
          obtain ⟨rfl, hp'⟩ := List.cons_prefix_cons.mp hp
          have hmem' : Event.createRun s' ∈ p' := by
            rcases List.mem_cons.mp hmem with hin | hin
            · exact absurd (by injection hin) hs'_ne
            · exact hin
          rcases prefix_append_cases hp' with hcase | ⟨q, rfl, hq⟩
          · exfalso
            have : Event.createRun s' ∈ evs := hcase.sublist.subset hmem'
            simpa [Event.isCreate] using hnoc _ this
          · have hterm := wait_some_terminal jl ex n obs r (by rw [hw])
            rcases k with _ | k''
            · -- previous stage is the head: its terminal observation is in evs
              have hobs : Event.observeTerminal n .completed ∈ evs := by
                have h2 := hterm.2
                rw [hc, hw] at h2
                exact h2
              exact List.mem_cons_of_mem _ (List.mem_append_left _ hobs)
            · -- previous stage is inside `rest`: apply the induction hypothesis
              have hkr : k'' + 1 < rest.length := hk'
              have hmemq : Event.createRun s' ∈ q := by
                rcases List.mem_append.mp hmem' with hin | hin
                · exact absurd (hnoc _ hin) (by simp [Event.isCreate])
                · exact hin
              have hind := ih tr' out' hnd_rest hr k'' hkr q hq hmemq
              exact List.mem_cons_of_mem _ (List.mem_append_right evs hind)
      · have htr : tr = Event.createRun n :: evs := by
          have := h.symm.trans (by simp [runStages, hw, hc] :
            runStages jl ex ((n, obs) :: rest)
              = (Event.createRun n :: evs, .halted n r.status))
          exact congrArg Prod.fst this
        exfalso
        have hin : Event.createRun s' ∈ tr := hp.sublist.subset hmem
        rw [htr] at hin
        rcases List.mem_cons.mp hin with hin | hin
        · exact hs'_ne (by injection hin)
        · simpa [Event.isCreate] using hnoc _ hin

/-! ## Concrete fixtures used by witnesses -/

/-- A `json.loads` model that rejects exactly the string "bad". -/
def jl₀ : String → Option Args := fun s => if s = "bad" then none else some []

/-- A tool executor that always succeeds. -/
def ex₀ : String → Args → ToolOut := fun _ _ => ToolOut.resultOut "ok"

/-- A pending tool call with parseable arguments. -/
def tcA : ToolCall := ⟨"call_1", "get_merchant_profile", "good"⟩

/-- A pending tool call whose arguments string fails to parse under `jl₀`. -/
def tcB : ToolCall := ⟨"call_2", "get_merchant_aggregated_stats", "bad"⟩

/-- Poll observations: one `requires_action` with two pending calls, then
completion. -/
def obs₁ : List PollObs :=
  [.ok .requiresAction [tcA, tcB] none, .ok .completed [] none]

/-! ## Claims -/

/-- C1: for every run entering `requires_action` with N pending tool calls,
the driver submits exactly N tool results in a single batch — every submitted
batch arises from one observed pending set and is its full, order-preserving
image: same length, correlation tokens exactly the pending ids (hence no
token duplicated when the pending ids are distinct, none omitted, and never a
proper subset), regardless of executor failures. -/
theorem C1_full_batch_submission (jl : String → Option Args)
    (ex : String → Args → ToolOut) (stage : String) (obs : List PollObs) :
    (∀ batch, Event.submitOutputs stage batch ∈ (wait_for_run_completion jl ex stage obs).2 →
      ∃ pending lastError, PollObs.ok .requiresAction pending lastError ∈ obs ∧
        batch = buildToolOutputs jl ex pending) ∧
    (∀ pending : List ToolCall,
      (buildToolOutputs jl ex pending).length = pending.length ∧
      (buildToolOutputs jl ex pending).map ToolOutputEntry.tool_call_id =
        pending.map ToolCall.id ∧
      ((pending.map ToolCall.id).Nodup →
        ((buildToolOutputs jl ex pending).map ToolOutputEntry.tool_call_id).Nodup)) := by
  refine ⟨fun batch h => wait_submit_from_pending jl ex stage obs batch h, fun pending => ?_⟩
  have hmap : (buildToolOutputs jl ex pending).map ToolOutputEntry.tool_call_id =
      pending.map ToolCall.id := by
    simp only [buildToolOutputs, List.map_map]
    rfl
  exact ⟨by simp [buildToolOutputs], hmap, fun h => hmap ▸ h⟩

/-- Witness for C1 at a concrete batch of two pending calls. -/
theorem C1_full_batch_submission_witness :
    (∃ pending lastError, PollObs.ok .requiresAction pending lastError ∈ obs₁ ∧
      buildToolOutputs jl₀ ex₀ [tcA, tcB] = buildToolOutputs jl₀ ex₀ pending) ∧
    ((buildToolOutputs jl₀ ex₀ [tcA, tcB]).map ToolOutputEntry.tool_call_id).Nodup :=
  ⟨(C1_full_batch_submission jl₀ ex₀ "Data Aggregation" obs₁).1
      (buildToolOutputs jl₀ ex₀ [tcA, tcB]) (by decide),
   ((C1_full_batch_submission jl₀ ex₀ "Data Aggregation" obs₁).2 [tcA, tcB]).2.2 (by decide)⟩

/-- C4: every Tool Executor failure — timeout past the explicit 30-unit
limit, connection fault, HTTP error status, unparseable body, or structured
error reply — yields an error-shaped JSON tool output from
`execute_mcp_tool` (a total function, never an exception), and that output
still fills the slot of its call in the built batch. -/
theorem C4_failures_are_error_shaped (nb : NetBehavior) (jl : String → Option Args)
    (netEnv : String → Args → NetBehavior) (pending : List ToolCall) (tc : ToolCall)
    (hfail : netFails nb = true) (hmem : tc ∈ pending) :
    REQUEST_TIMEOUT = 30 ∧
    (execute_mcp_tool nb).isErrorShaped = true ∧
    processToolCall jl (fun n a => execute_mcp_tool (netEnv n a)) tc ∈
      buildToolOutputs jl (fun n a => execute_mcp_tool (netEnv n a)) pending ∧
    (processToolCall jl (fun n a => execute_mcp_tool (netEnv n a)) tc).tool_call_id =
      tc.id := by
  refine ⟨rfl, ?_, List.mem_map_of_mem _ hmem, rfl⟩
  obtain ⟨elapsed, result⟩ := nb
  by_cases ht : REQUEST_TIMEOUT < elapsed
  · simp [execute_mcp_tool, ht, ToolOut.isErrorShaped]
  · cases result with
    | connFault m => simp [execute_mcp_tool, ht, ToolOut.isErrorShaped]
    | http status body =>
      simp only [netFails, ht, decide_eq_true_eq, decide_eq_false_iff_not,
        Bool.false_or] at hfail
      by_cases hs : 400 ≤ status ∧ status < 600
      · simp [execute_mcp_tool, ht, hs, ToolOut.isErrorShaped]
      · cases body with
        | malformed raw => simp [execute_mcp_tool, ht, hs, ToolOut.isErrorShaped]
        | obj errorField resultField =>
          cases errorField with
          | some e => simp [execute_mcp_tool, ht, hs, ToolOut.isErrorShaped]
          | none => simp [hs] at hfail

/-- Witness for C4 at a timed-out request. -/
theorem C4_failures_are_error_shaped_witness :
    (execute_mcp_tool ⟨31, .http 200 (.obj none none)⟩).isErrorShaped = true ∧
    processToolCall jl₀ (fun n a => execute_mcp_tool
        ((fun _ _ => (⟨31, .http 200 (.obj none none)⟩ : NetBehavior)) n a)) tcA ∈
      buildToolOutputs jl₀ (fun n a => execute_mcp_tool
        ((fun _ _ => (⟨31, .http 200 (.obj none none)⟩ : NetBehavior)) n a)) [tcA] :=
  have h := C4_failures_are_error_shaped ⟨31, .http 200 (.obj none none)⟩ jl₀
    (fun _ _ => ⟨31, .http 200 (.obj none none)⟩) [tcA] tcA (by decide) (by decide)
  ⟨h.2.1, h.2.2.1⟩

/-- C5: the polling loop returns only after observing a terminal status;
if no observation is terminal it is still looping (`none`); the sleeps it
performs are exactly the constant `POLL_DELAY = 2` after each non-terminal
poll and the strictly longer constant `EXC_DELAY = 5` after each status-check
fault, with no retry limit or overall timeout. -/
theorem C5_polling_loop (jl : String → Option Args) (ex : String → Args → ToolOut)
    (stage : String) (obs : List PollObs) :
    (∀ r, (wait_for_run_completion jl ex stage obs).1 = some r →
      r.status.isTerminal = true) ∧
    ((∀ o ∈ obs, o.isTerminal = false) →
      (wait_for_run_completion jl ex stage obs).1 = none) ∧
    ((wait_for_run_completion jl ex stage obs).2.filterMap Event.sleepTime =
      (obs.takeWhile (fun o => !o.isTerminal)).filterMap PollObs.delay) ∧
    POLL_DELAY = 2 ∧ EXC_DELAY = 5 ∧ POLL_DELAY < EXC_DELAY :=
  ⟨fun r h => (wait_some_terminal jl ex stage obs r h).1,
   wait_none_of_no_terminal jl ex stage obs,
   wait_sleeps jl ex stage obs, rfl, rfl, by decide⟩

/-- Witness for C5: a loop seeing only a fault and a queued status is still
running. -/
theorem C5_polling_loop_witness :
    (wait_for_run_completion jl₀ ex₀ "Data Aggregation"
      [.exn "boom", .ok .queued [] none]).1 = none :=
  (C5_polling_loop jl₀ ex₀ "Data Aggregation" [.exn "boom", .ok .queued [] none]).2.1
    (by decide)

/-- C9: when the arguments of a pending call fail to parse as JSON, the driver
still dispatches the tool with an empty argument mapping and the submitted
entry carries the response of the executor — the locally built invalid-JSON error
is dead and never reaches the run. -/
theorem C9_invalid_json_overwritten (jl : String → Option Args)
    (ex : String → Args → ToolOut) (tc : ToolCall) (pending : List ToolCall)
    (hparse : jl tc.arguments = none) (hmem : tc ∈ pending) :
    processToolCall jl ex tc = { tool_call_id := tc.id, output := ex tc.name [] } ∧
    ({ tool_call_id := tc.id, output := ex tc.name [] } : ToolOutputEntry) ∈
      buildToolOutputs jl ex pending := by
  have h : processToolCall jl ex tc =
      { tool_call_id := tc.id, output := ex tc.name [] } := by
    simp [processToolCall, hparse]
  exact ⟨h, h ▸ List.mem_map_of_mem _ hmem⟩

/-- Witness for C9 at a concrete unparseable-arguments call. -/
theorem C9_invalid_json_overwritten_witness :
    processToolCall jl₀ ex₀ tcB =
      { tool_call_id := tcB.id, output := ex₀ tcB.name [] } ∧
    ({ tool_call_id := tcB.id, output := ex₀ tcB.name [] } : ToolOutputEntry) ∈
      buildToolOutputs jl₀ ex₀ [tcA, tcB] :=
  C9_invalid_json_overwritten jl₀ ex₀ tcB [tcA, tcB] (by decide) (by decide)

/-- C2: if the run of a stage reaches a terminal failure, the pipeline halts
there: the failure status is `failed`/`cancelled`/`expired`, the halting
halting stage saw exactly one run creation (no retry), and no stage after the
halting one in the pipeline produces any event — in particular no run
creation and no tool execution (so no `update_merchant_risk_status` or
`create_aml_manual_review_case` call) is made by a later stage. -/
theorem C2_halt_stops_pipeline (jl : String → Option Args)
    (ex : String → Args → ToolOut) (obss : List (List PollObs)) (tr : List Event)
    (name : String) (st : RunStatus)
    (h : analyze_merchant jl ex obss = (tr, .halted name st)) :
    (st = .failed ∨ st = .cancelled ∨ st = .expired) ∧
    tr.countP (fun e => decide (e = Event.createRun name)) = 1 ∧
    ∀ pre post, stageList = pre ++ name :: post →
      ∀ s' ∈ post,
        Event.createRun s' ∉ tr ∧
        (∀ tool, Event.execTool s' tool ∉ tr) ∧
        ∀ e ∈ tr, e.stage ≠ s' := by
  have hnd : ((stageList.zip obss).map Prod.fst).Nodup :=
    List.Nodup.sublist (zip_map_fst_leading stageList obss).sublist (by decide)
  obtain ⟨hst, l₁, o, l₂, hdec, hstage, hcount⟩ :=
    runStages_halted jl ex (stageList.zip obss) tr name st hnd h
  refine ⟨hst, hcount, ?_⟩
  intro pre post hsplit s' hs'
  obtain ⟨t, ht⟩ := zip_map_fst_leading stageList obss
  rw [hdec] at ht
  simp only [List.map_append, List.map_cons, List.append_assoc, List.cons_append] at ht
  -- ht : l₁.map fst ++ name :: (l₂.map fst ++ t) = stageList
  have hnodup : stageList.Nodup := by decide
  have heq : pre ++ name :: post = l₁.map Prod.fst ++ name :: (l₂.map Prod.fst ++ t) :=
    hsplit.symm.trans ht.symm
  have hnd₁ : (pre ++ name :: post).Nodup := hsplit ▸ hnodup
  have hnd₂ : (l₁.map Prod.fst ++ name :: (l₂.map Prod.fst ++ t)).Nodup := ht ▸ hnodup
  obtain ⟨_, hnp, hdisj⟩ := List.nodup_append.mp hnd₁
  obtain ⟨_, _, hdisj₂⟩ := List.nodup_append.mp hnd₂
  have hname_pre : name ∉ pre := fun hm => hdisj hm (List.mem_cons_self _ _)
  have hname_l₁ : name ∉ l₁.map Prod.fst := fun hm => hdisj₂ hm (List.mem_cons_self _ _)
  obtain ⟨hpre_eq, _⟩ := append_cons_inj pre (l₁.map Prod.fst) post
    (l₂.map Prod.fst ++ t) heq hname_pre hname_l₁
  have hs'_not_pre : s' ∉ pre := fun hm => hdisj hm (List.mem_cons_of_mem _ hs')
  have hs'_ne_name : s' ≠ name := by
    intro hEq
    exact (List.nodup_cons.mp hnp).1 (hEq ▸ hs')
  have hstage' : ∀ e ∈ tr, e.stage ≠ s' := by
    intro e he hEq
    have := hstage e he
    rw [← hpre_eq] at this
    rcases List.mem_append.mp this with hin | hin
    · exact hs'_not_pre (hEq ▸ hin)
    · exact hs'_ne_name (hEq ▸ List.mem_singleton.mp hin)
  refine ⟨?_, ?_, hstage'⟩
  · intro hin
    exact hstage' (Event.createRun s') hin rfl
  · intro tool hin
    exact hstage' (Event.execTool s' tool) hin rfl

/-- Witness for C2: stage 1 fails, so stage 2 produces no events at all. -/
theorem C2_halt_stops_pipeline_witness :
    Event.createRun "Pattern Detection" ∉
      ([Event.createRun "Data Aggregation",
        Event.observeTerminal "Data Aggregation" RunStatus.failed] : List Event) ∧
    ∀ tool, Event.execTool "Pattern Detection" tool ∉
      ([Event.createRun "Data Aggregation",
        Event.observeTerminal "Data Aggregation" RunStatus.failed] : List Event) :=
  have h := C2_halt_stops_pipeline jl₀ ex₀ [[.ok .failed [] none]]
    [Event.createRun "Data Aggregation",
     Event.observeTerminal "Data Aggregation" RunStatus.failed]
    "Data Aggregation" .failed (by decide)
  have h3 := h.2.2 [] ["Pattern Detection", "Risk Assessment", "Action Alerting"]
    (by decide) "Pattern Detection" (by decide)
  ⟨h3.1, h3.2.1⟩

/-- C3: stages run strictly sequentially — any trace prefix containing the
creation of the run of stage N+1 already contains the observation of the run
of stage N in the terminal status `completed`, so the run of stage N+1 is
never created before the run of stage N was observed terminal. -/
theorem C3_sequential_stages (jl : String → Option Args)
    (ex : String → Args → ToolOut) (obss : List (List PollObs)) (tr : List Event)
    (out : PipeOutcome) (h : analyze_merchant jl ex obss = (tr, out))
    (k : Nat) (hk : k + 1 < (stageList.zip obss).length) (p : List Event)
    (hp : p <+: tr)
    (hmem : Event.createRun ((stageList.zip obss).get ⟨k + 1, hk⟩).1 ∈ p) :
    Event.observeTerminal ((stageList.zip obss).get ⟨k, Nat.lt_of_succ_lt hk⟩).1
      RunStatus.completed ∈ p := by
  have hnd : ((stageList.zip obss).map Prod.fst).Nodup :=
    List.Nodup.sublist (zip_map_fst_leading stageList obss).sublist (by decide)
  exact runStages_seq jl ex (stageList.zip obss) tr out hnd h k hk p hp hmem

/-- Witness for C3 with two stages completing in order. -/
theorem C3_sequential_stages_witness :
    Event.observeTerminal "Data Aggregation" RunStatus.completed ∈
      ([Event.createRun "Data Aggregation",
        Event.observeTerminal "Data Aggregation" RunStatus.completed,
        Event.createRun "Pattern Detection",
        Event.observeTerminal "Pattern Detection" RunStatus.failed] : List Event) := by
  have h := C3_sequential_stages jl₀ ex₀
    [[.ok .completed [] none], [.ok .failed [] none]]
    [Event.createRun "Data Aggregation",
     Event.observeTerminal "Data Aggregation" RunStatus.completed,
     Event.createRun "Pattern Detection",
     Event.observeTerminal "Pattern Detection" RunStatus.failed]
    (.halted "Pattern Detection" .failed) (by decide) 0 (by decide)
    [Event.createRun "Data Aggregation",
     Event.observeTerminal "Data Aggregation" RunStatus.completed,
     Event.createRun "Pattern Detection",
     Event.observeTerminal "Pattern Detection" RunStatus.failed]
    (List.prefix_refl _) (by decide)
  exact h

/-- A tool execution that always succeeds (the tool body is never reached on
an argument mismatch). -/
def run₀ : String → List String → Except String String := fun _ _ => .ok "profile"

/-- C6 counterexample: on an argument mismatch the server does reply with a
400 whose `error` field names the mismatch, but `raise_for_status` in
`execute_mcp_tool` fires before the body is read, so the Tool Result
delivered to the run is the generic connection-error string — the
mismatch-naming error never reaches the submitted output of the Job Driver. -/
theorem C6_counterexample :
    execute_tool run₀ (some "get_merchant_profile") ["wrong_arg"] =
      ServerResp.err 400
        "Argument mismatch for tool \x27get_merchant_profile\x27: unexpected or missing arguments" ∧
    execute_mcp_tool (serverToNet
        (execute_tool run₀ (some "get_merchant_profile") ["wrong_arg"])) =
      ToolOut.errorOut "MCP connection error: 400 Client Error for url: /execute" ∧
    ¬ ("Argument mismatch".data <:+:
        "MCP connection error: 400 Client Error for url: /execute".data) :=
  ⟨by decide, by decide, by decide⟩

/-- C6 (amended): for every tool call whose argument keys do not match the
registered signature, the executor boundary replies with a structured 400
error whose `error` field names the argument mismatch, and the Job Driver
turns that reply into an error-shaped Tool Result (wrapping the HTTP-level
failure, not the mismatch text) instead of crashing. -/
theorem C6_mismatch_surfaced_structured (run : String → List String → Except String String)
    (name : String) (req opt argKeys : List String)
    (hsig : toolSig name = some (req, opt))
    (hmis : argsMatch argKeys req opt = false) :
    ∃ msg, execute_tool run (some name) argKeys = .err 400 msg ∧
      ("Argument mismatch".data <:+: msg.data) ∧
      (execute_mcp_tool (serverToNet
        (execute_tool run (some name) argKeys))).isErrorShaped = true := by
  have hresp : execute_tool run (some name) argKeys =
      .err 400 ("Argument mismatch for tool \x27" ++ name ++
        "\x27: unexpected or missing arguments") := by
    simp [execute_tool, hsig, hmis]
  refine ⟨"Argument mismatch for tool \x27" ++ name ++ "\x27: unexpected or missing arguments",
    hresp, ?_, ?_⟩
  · have h1 : "Argument mismatch".data <+: "Argument mismatch for tool \x27".data := by
      decide
    have h2 := h1.trans
      (List.prefix_append "Argument mismatch for tool \x27".data name.data)
    have h3 := h2.trans (List.prefix_append
      ("Argument mismatch for tool \x27".data ++ name.data)
      "\x27: unexpected or missing arguments".data)
    rw [String.data_append, String.data_append]
    exact h3.isInfix
  · rw [hresp]
    simp [serverToNet, execute_mcp_tool, REQUEST_TIMEOUT, ToolOut.isErrorShaped]

/-- Witness for the amended C6 at a concrete mismatched call. -/
theorem C6_mismatch_surfaced_structured_witness :
    ∃ msg, execute_tool run₀ (some "get_merchant_profile") ["wrong_arg"] =
        .err 400 msg ∧
      ("Argument mismatch".data <:+: msg.data) ∧
      (execute_mcp_tool (serverToNet
        (execute_tool run₀ (some "get_merchant_profile") ["wrong_arg"]))).isErrorShaped
        = true :=
  C6_mismatch_surfaced_structured run₀ "get_merchant_profile" ["merchant_id"] []
    ["wrong_arg"] rfl (by decide)

/-- A `datetime.fromisoformat` model accepting every string (as instant 0). -/
def parseAll : String → Option Int := fun _ => some 0

/-- A `datetime.fromisoformat` model rejecting every string. -/
def parseNone : String → Option Int := fun _ => none

/-- A transaction of merchant M1001. -/
def t₀ : Txn :=
  { transaction_id := "T1000001", merchant_id := "M1001", timestamp := 0, amount := 50,
    currency := "USD", card_id_token := "Card_1", card_type := "Credit",
    card_country := "US", is_rounded := false, is_error := 0 }

/-- C7 counterexample: with loaded data and valid dates but no transactions
for the subject in the period, `get_merchant_aggregated_stats` returns a
`message` dictionary — neither the aggregate mapping nor a dictionary with
an `error` key, contradicting the claim that the no-data case is a
structured error. -/
theorem C7_counterexample :
    get_merchant_aggregated_stats parseAll [t₀] "M1005" "2024-01-01" "2024-01-02" =
      .message "No transactions found for M1005 in the period." ∧
    (get_merchant_aggregated_stats parseAll [t₀] "M1005" "2024-01-01"
      "2024-01-02").hasErrorKey = false ∧
    (get_merchant_aggregated_stats parseAll [t₀] "M1005" "2024-01-01"
      "2024-01-02").isStats = false :=
  ⟨by decide, by decide, by decide⟩

/-- C7 (amended): with loaded transaction data, the aggregated-stats
operation returns the invalid-date `error` dictionary when either date
string fails to parse; with valid dates it returns the no-data `message`
dictionary (a mapping with a `message` key and no `error` key, forwarded as
a success) when no transactions match, and otherwise the aggregate mapping
with counts, sums, means and distributions over the transactions of the subject
in the inclusive range. -/
theorem C7_stats_or_structured_reply (parse : String → Option Int) (txns : List Txn)
    (mid s e : String) (hne : txns ≠ []) :
    ((parse s = none ∨ parse e = none) →
      get_merchant_aggregated_stats parse txns mid s e =
        .err "Invalid date format. Use ISO format (YYYY-MM-DDTHH:MM:SS).") ∧
    (∀ sd ed, parse s = some sd → parse e = some ed →
      ((txns.filter (txnInRange mid sd ed)).isEmpty = true →
        get_merchant_aggregated_stats parse txns mid s e =
          .message ("No transactions found for " ++ mid ++ " in the period.")) ∧
      ((txns.filter (txnInRange mid sd ed)).isEmpty = false →
        ∃ a, get_merchant_aggregated_stats parse txns mid s e = .stats a ∧
          a.total_transactions = (txns.filter (txnInRange mid sd ed)).length ∧
          a.total_value = ((txns.filter (txnInRange mid sd ed)).map Txn.amount).sum ∧
          a.average_transaction_value = a.total_value / a.total_transactions ∧
          a.unique_cards =
            ((txns.filter (txnInRange mid sd ed)).map Txn.card_id_token).dedup.length ∧
          a.transactions_by_card_country =
            valueCounts ((txns.filter (txnInRange mid sd ed)).map Txn.card_country))) := by
  have hne' : txns.isEmpty = false := List.isEmpty_eq_false.mpr hne
  constructor
  · intro hp
    rcases hq : parse s with _ | sd
    · simp [get_merchant_aggregated_stats, hne', hq]
    · rcases hr : parse e with _ | ed
      · simp [get_merchant_aggregated_stats, hne', hq, hr]
      · rcases hp with hp | hp
        · rw [hq] at hp; cases hp
        · rw [hr] at hp; cases hp
  · intro sd ed hs he
    constructor
    · intro hfe
      simp [get_merchant_aggregated_stats, hne', hs, he, hfe]
    · intro hfe
      simp only [get_merchant_aggregated_stats, hne', Bool.false_eq_true, if_false,
        hs, he, hfe]
      exact ⟨_, rfl, rfl, rfl, rfl, rfl, rfl⟩

/-- Witness for the amended C7: an invalid-date call errors; a populated
range yields the stats mapping with the right count. -/
theorem C7_stats_or_structured_reply_witness :
    get_merchant_aggregated_stats parseNone [t₀] "M1001" "x" "y" =
      .err "Invalid date format. Use ISO format (YYYY-MM-DDTHH:MM:SS)." ∧
    ∃ a, get_merchant_aggregated_stats parseAll [t₀] "M1001" "2024-01-01"
        "2024-01-02" = .stats a ∧ a.total_transactions = 1 := by
  have h1 := (C7_stats_or_structured_reply parseNone [t₀] "M1001" "x" "y"
    (by decide)).1 (Or.inl rfl)
  have h2 := ((C7_stats_or_structured_reply parseAll [t₀] "M1001" "2024-01-01"
    "2024-01-02" (by decide)).2 0 0 rfl rfl).2 (by decide)
  obtain ⟨a, ha, htot, _⟩ := h2
  exact ⟨h1, a, ha, by rw [htot]; decide⟩

/-- C8: with loaded data and a valid date range, the flagged-examples
operation returns a record list that is exactly the first 10 matches in
source order: at most 10 records, each a transaction of the subject within
the inclusive range with amount at least the threshold (default 1000), and
the list is a sublist of the source table (source order preserved). -/
theorem C8_capped_flagged_examples (parse : String → Option Int) (txns : List Txn)
    (mid s e : String) (thr : ℚ) (sd ed : Int)
    (hne : txns ≠ []) (hs : parse s = some sd) (he : parse e = some ed) :
    ∃ rs, get_anomalous_transactions parse txns mid s e thr = .records rs ∧
      rs = (txns.filter
        (fun t => txnInRange mid sd ed t && decide (thr ≤ t.amount))).take 10 ∧
      rs.length ≤ 10 ∧
      (∀ t ∈ rs, t.merchant_id = mid ∧ sd ≤ t.timestamp ∧ t.timestamp ≤ ed ∧
        thr ≤ t.amount) ∧
      rs.Sublist txns ∧
      get_anomalous_transactions parse txns mid s e =
        get_anomalous_transactions parse txns mid s e 1000 := by
  have hne' : txns.isEmpty = false := List.isEmpty_eq_false.mpr hne
  refine ⟨(txns.filter
      (fun t => txnInRange mid sd ed t && decide (thr ≤ t.amount))).take 10,
    ?_, rfl, List.length_take_le 10 _, ?_, ?_, rfl⟩
  · simp [get_anomalous_transactions, hne', hs, he]
  · intro t ht
    have hmem := List.mem_of_mem_take ht
    have hpred := (List.mem_filter.mp hmem).2
    rw [Bool.and_eq_true] at hpred
    obtain ⟨hin, hthr⟩ := hpred
    simp only [txnInRange, Bool.and_eq_true, decide_eq_true_eq] at hin
    exact ⟨hin.1.1, hin.1.2, hin.2, by simpa using hthr⟩
  · exact (List.take_sublist 10 _).trans (List.filter_sublist txns)

/-- A high-value transaction of merchant M1005. -/
def t₁ : Txn :=
  { transaction_id := "T1000002", merchant_id := "M1005", timestamp := 0, amount := 1500,
    currency := "USD", card_id_token := "Card_2", card_type := "Prepaid",
    card_country := "CY", is_rounded := true, is_error := 0 }

/-- Witness for C8 at a one-row table with the default threshold. -/
theorem C8_capped_flagged_examples_witness :
    ∃ rs, get_anomalous_transactions parseAll [t₁] "M1005" "a" "b" 1000 =
        .records rs ∧ rs.length ≤ 10 ∧ rs.Sublist [t₁] := by
  obtain ⟨rs, h1, _, h3, _, h5, _⟩ := C8_capped_flagged_examples parseAll [t₁]
    "M1005" "a" "b" 1000 0 0 (by decide) rfl rfl
  exact ⟨rs, h1, h3, h5⟩

/-- C10: `update_merchant_risk_status` with an existing merchant id succeeds
and modifies only the `current_risk_status` and `last_risk_reason` fields of
the rows matching that id — all other fields of those rows, all other rows,
and the whole transaction table are unchanged; with a non-existent id the
state is entirely unchanged and an error result is returned. -/
theorem C10_update_risk_frame (st : ServerState) (mid ns rc : String) :
    (mid ∈ st.merchants.map Merchant.merchant_id →
      (update_merchant_risk_status st mid ns rc).2 = .success mid ns ∧
      (update_merchant_risk_status st mid ns rc).1.transactions = st.transactions ∧
      List.Forall₂ (fun old new =>
          (old.merchant_id ≠ mid → new = old) ∧
          (old.merchant_id = mid →
            new = { old with current_risk_status := some ns,
                             last_risk_reason := some rc }))
        st.merchants (update_merchant_risk_status st mid ns rc).1.merchants) ∧
    (mid ∉ st.merchants.map Merchant.merchant_id →
      (update_merchant_risk_status st mid ns rc).1 = st ∧
      ∃ m, (update_merchant_risk_status st mid ns rc).2 = .error m) := by
  constructor
  · intro hmem
    have hne : st.merchants.isEmpty = false := by
      rw [List.isEmpty_eq_false]
      intro hnil
      rw [hnil] at hmem
      simp at hmem
    have h : update_merchant_risk_status st mid ns rc =
        ({ st with merchants := st.merchants.map (fun m =>
            if m.merchant_id = mid then
              { m with current_risk_status := some ns, last_risk_reason := some rc }
            else m) }, .success mid ns) := by
      simp [update_merchant_risk_status, hne, hmem]
    rw [h]
    refine ⟨rfl, rfl, ?_⟩
    rw [List.forall₂_map_right_iff, List.forall₂_same]
    intro x _
    constructor
    · intro hne'
      simp [hne']
    · intro hEq
      simp [hEq]
  · intro hnm
    by_cases hemp : st.merchants.isEmpty
    · have h : update_merchant_risk_status st mid ns rc =
          (st, .error "Merchant data not loaded.") := by
        simp [update_merchant_risk_status, hemp]
      rw [h]
      exact ⟨rfl, _, rfl⟩
    · rw [Bool.not_eq_true] at hemp
      have h : update_merchant_risk_status st mid ns rc =
          (st, .error ("Merchant " ++ mid ++ " not found for status update.")) := by
        simp [update_merchant_risk_status, hemp, hnm]
      rw [h]
      exact ⟨rfl, _, rfl⟩

/-- A merchant row for the witness state. -/
def m₁ : Merchant :=
  { merchant_id := "M1001", mcc := "5812", merchant_name := "Restaurants 1",
    country := "US", ownership_changed_recently := false, baseline_risk := "Low",
    current_risk_status := none, last_risk_reason := none }

/-- A second merchant row for the witness state. -/
def m₂ : Merchant :=
  { merchant_id := "M1002", mcc := "5411", merchant_name := "Grocery Stores 2",
    country := "CY", ownership_changed_recently := true, baseline_risk := "High",
    current_risk_status := none, last_risk_reason := none }

/-- A concrete server state for the C10 witness. -/
def st₀ : ServerState := { merchants := [m₁, m₂], transactions := [t₀] }

/-- Witness for C10: updating an existing merchant leaves the transaction
table intact; updating a missing merchant leaves the whole state intact. -/
theorem C10_update_risk_frame_witness :
    (update_merchant_risk_status st₀ "M1001" "High Risk" "ML_PATTERNS").1.transactions
      = st₀.transactions ∧
    (update_merchant_risk_status st₀ "M9999" "High Risk" "ML_PATTERNS").1 = st₀ :=
  ⟨((C10_update_risk_frame st₀ "M1001" "High Risk" "ML_PATTERNS").1
      (by decide)).2.1,
   ((C10_update_risk_frame st₀ "M9999" "High Risk" "ML_PATTERNS").2
      (by decide)).1⟩

end Mcp
